import Mathlib

/-!
Verification of the blog-post scaffolding script `_scripts/create_file.py`.

The script is embedded shallowly:

* Python strings become `String`; `str.lower` becomes `pyLower`
  (Python's per-character lowercase mapping, restricted — like Lean's
  `Char.toLower` — to the basic latin letters, which covers every input the
  claims use); `sep.join(list)` becomes `pyJoin`.
* `os.path` functions (POSIX flavour) are translated as the pure string
  functions they are: `posixSplit` and `posixDirname` follow
  `posixpath.split` and `posixpath.dirname`, `osJoin2` follows the
  two-argument step of `posixpath.join`, with multi-argument
  `os.path.join(a, b, c)` being the left fold `osJoin2 (osJoin2 a b) c`.
* The filesystem is a state `FS`: a list of existing directories and an
  association list from file paths to their contents.  `os.path.exists`,
  `os.mkdir`, `os.makedirs` and `open(file, mode='w+')` become functions
  from `FS` to `Except PyErr FS`; a raised exception is the `.error` case
  and, the state being passed functionally, an error leaves the input
  filesystem untouched.
* `argparse` is modelled by `parseArgs` for exactly the parser configured in
  the script (`-f` alias `--filename` with `nargs` plus, `-d` alias
  `--dest`, `--drafts` with `store_true`); none of the three options is
  declared `required`, so an empty command line parses successfully to the
  all-default namespace.
* `os.makedirs` recurses on the head of `posixpath.split`; each recursive
  call is on a strictly shorter string (the split head is shorter than its
  argument whenever the split tail is nonempty, `splitNorm_fst_lt`), so the
  recursion depth is bounded by the length of the path and the function is
  given that much fuel; the value of the fuel is provably irrelevant above
  this bound (`makedirsF_fuel_irrelevant`), so the out-of-fuel branch is
  unreachable.
-/

namespace CreateFile

/-- Python exceptions that the embedded code can raise. -/
inductive PyErr where
  | typeError
  | fileExistsError
  | fileNotFoundError
  | isADirectoryError
deriving DecidableEq, Repr

/-- Python `str.lower` (basic latin mapping, per character). -/
def pyLower (s : String) : String := ⟨s.data.map Char.toLower⟩

/-- Python `sep.join(l)`: the elements of `l` interleaved with `sep`. -/
def pyJoin (sep : String) : List String → String
  | [] => ""
  | [x] => x
  | x :: y :: rest => x ++ sep ++ pyJoin sep (y :: rest)

/-- `create_file_name(file_args, ext='.md')` from the script, with the
invocation date (`date.today().isoformat()`) passed in as `today`:
`file_name = '-'.join(file_args).lower()`, then
`file_name = '-'.join([today, file_name])`, then `file_name += ext`. -/
def create_file_name (today : String) (file_args : List String)
    (ext : String) : String :=
  let file_name := pyLower (pyJoin "-" file_args)
  let file_name := pyJoin "-" [today, file_name]
  file_name ++ ext

/-- The default value of the `ext` parameter of `create_file_name`. -/
def defaultExt : String := ".md"

/-- `get_front_matter()` from the script: the fixed template constant. -/
def get_front_matter : String :=
  "---\nauthors: [<author>]\nlayout: post\ntitle: <title>\ncategories: [<categories>]\ntags: [<tag>]\n---\n"

/-- Splitting a string at newline characters (for stating what the lines of
the front-matter template are). -/
def linesAux : List Char → List Char → List String
  | [], acc => [⟨acc.reverse⟩]
  | c :: rest, acc =>
    if c = '\n' then ⟨acc.reverse⟩ :: linesAux rest []
    else linesAux rest (c :: acc)

/-- The newline-separated segments of a string. -/
def nlSegments (s : String) : List String := linesAux s.data []

/-- Does a character list denote an absolute path (leading `/`)? -/
def absL : List Char → Bool
  | c :: _ => c == '/'
  | [] => false

/-- `posixpath.isabs`-style check on strings. -/
def isAbs (s : String) : Bool := absL s.data

/-- Does the path end with the separator (`p.endswith('/')`)? -/
def lastIsSlash (l : List Char) : Bool :=
  match l.getLast? with
  | some c => c == '/'
  | none => false

/-- One step of `posixpath.join`: if the new component is absolute it
replaces the path so far; otherwise it is appended, inserting a `/` unless
the path so far is empty or already ends with one. -/
def joinL (a b : List Char) : List Char :=
  if absL b then b
  else if a.isEmpty || lastIsSlash a then a ++ b
  else a ++ '/' :: b

/-- `os.path.join` on two strings (POSIX). -/
def osJoin2 (a b : String) : String := ⟨joinL a.data b.data⟩

/-- Remove trailing `/` characters (`p.rstrip('/')`). -/
def stripTrail (l : List Char) : List Char :=
  (l.reverse.dropWhile fun c => c == '/').reverse

/-- The text of `p` up to and including its last `/` (empty when `p` has
no separator): the head of `posixpath.split` before its rstrip step. -/
def splitHeadRaw (p : List Char) : List Char :=
  (p.reverse.dropWhile fun c => c != '/').reverse

/-- `posixpath.split(p)`: the text after the last `/` is the tail; the text
up to and including the last `/` is the head, stripped of trailing slashes
unless it consists only of slashes. -/
def splitL (p : List Char) : List Char × List Char :=
  (if !(splitHeadRaw p).isEmpty && (splitHeadRaw p).any fun c => c != '/' then
    stripTrail (splitHeadRaw p)
  else splitHeadRaw p,
  (p.reverse.takeWhile fun c => c != '/').reverse)

/-- `posixpath.dirname(p)`: the head component of `posixpath.split(p)`. -/
def dirnameL (p : List Char) : List Char := (splitL p).1

/-- `os.path.dirname` on strings (POSIX). -/
def posixDirname (p : String) : String := ⟨dirnameL p.data⟩

/-- `os.path.split` on strings (POSIX). -/
def posixSplit (p : String) : String × String :=
  ((splitL p.data).1.asString, (splitL p.data).2.asString)

/-- `get_dest_dir(is_post, dest)` from the script.  The script computes
`root = os.path.dirname(os.path.dirname(os.path.abspath(__file__)))`; the
absolute path of the installed script is passed in as `scriptAbs` (already
absolute and normalised, as `os.path.abspath` guarantees).  When the `-d`
flag was omitted `dest` is `None`, and `os.path.join(root, base_dir, None)`
raises `TypeError` because `None` is not a valid path component. -/
def get_dest_dir (scriptAbs : String) (is_post : Bool)
    (dest : Option String) : Except PyErr String :=
  let base_dir := if is_post then "_posts" else "_drafts"
  let root := posixDirname (posixDirname scriptAbs)
  match dest with
  | none => .error .typeError
  | some d => .ok (osJoin2 (osJoin2 root base_dir) d)

/-- The base directory selected by `get_dest_dir` before the `dest`
component is joined on: `<root>/_posts` or `<root>/_drafts`. -/
def baseDirOf (scriptAbs : String) (is_post : Bool) : String :=
  osJoin2 (posixDirname (posixDirname scriptAbs))
    (if is_post then "_posts" else "_drafts")

/-- String `s` ends with the string `suf`. -/
def strEndsWith (s suf : String) : Prop := suf.data <:+ s.data

instance (s suf : String) : Decidable (strEndsWith s suf) := by
  unfold strEndsWith; infer_instance

/-- Filesystem state: the set of existing directories and the contents of
the existing regular files (an association list from path to content). -/
structure FS where
  dirs : List String
  files : List (String × String)
deriving DecidableEq, Repr

/-- `os.path.exists`: true for an existing directory or file. -/
def pathExists (fs : FS) (p : String) : Bool :=
  fs.dirs.contains p || (fs.files.map Prod.fst).contains p

/-- Update an association list at a key, overwriting an existing binding
(the truncating write of mode `w+`) or appending a new one. -/
def setFile : List (String × String) → String → String →
    List (String × String)
  | [], k, v => [(k, v)]
  | (k', v') :: rest, k, v =>
    if k' = k then (k, v) :: rest else (k', v') :: setFile rest k v

/-- Look up a file's content. -/
def lookupFile : List (String × String) → String → Option String
  | [], _ => none
  | (k', v') :: rest, k => if k' = k then some v' else lookupFile rest k

/-- The head and tail `os.makedirs` starts from: `posixpath.split(name)`,
then — per `if not tail: head, tail = path.split(head)` — split once more
when the tail is empty (a trailing slash). -/
def splitNorm (name : String) : String × String :=
  if (posixSplit name).2 = "" then posixSplit (posixSplit name).1
  else posixSplit name

/-- `os.mkdir(name)`: fails when the path already exists
(`FileExistsError`), or when the name is empty or its parent directory is
missing (`FileNotFoundError`); otherwise records the new directory. -/
def mkdir (fs : FS) (name : String) : Except PyErr FS :=
  if pathExists fs name then .error .fileExistsError
  else if name = "" then .error .fileNotFoundError
  else if (splitNorm name).1 != "" && !pathExists fs (splitNorm name).1 then
    .error .fileNotFoundError
  else .ok { fs with dirs := name :: fs.dirs }

/-- The `try: mkdir(name) except OSError: if not exist_ok or not
path.isdir(name): raise` epilogue of `os.makedirs`. -/
def mkdirEx (fs : FS) (name : String) (exist_ok : Bool) : Except PyErr FS :=
  match mkdir fs name with
  | .ok fs' => .ok fs'
  | .error e =>
    if exist_ok && fs.dirs.contains name then .ok fs else .error e

/-- `os.makedirs(name, exist_ok)`, with explicit fuel for the recursion on
the split head.  Each recursive call is on a strictly shorter string
(`splitNorm_fst_lt`), so fuel `name.length + 1` always suffices and the
value of the fuel above that bound is irrelevant
(`makedirsF_fuel_irrelevant`); the out-of-fuel branch is unreachable. -/
def makedirsF : Nat → FS → String → Bool → Except PyErr FS
  | 0, _, _, _ => .error .fileNotFoundError
  | fuel + 1, fs, name, exist_ok =>
    if (splitNorm name).1 != "" && (splitNorm name).2 != "" &&
        !pathExists fs (splitNorm name).1 then
      match
        (match makedirsF fuel fs (splitNorm name).1 true with
         | .ok fs' => Except.ok fs'
         | .error .fileExistsError => Except.ok fs
         | .error e => Except.error e) with
      | .error e => .error e
      | .ok fs1 =>
        if (splitNorm name).2 = "." then .ok fs1
        else mkdirEx fs1 name exist_ok
    else mkdirEx fs name exist_ok

/-- `os.makedirs(name, exist_ok=exist_ok)`. -/
def makedirs (fs : FS) (name : String) (exist_ok : Bool) : Except PyErr FS :=
  makedirsF (name.length + 1) fs name exist_ok

/-- `with open(file, mode='w+') as f: f.write(content)`: fails when the
target is a directory or the parent directory is missing; otherwise
creates or truncates the file so that it holds exactly `content`. -/
def openW (fs : FS) (file content : String) : Except PyErr FS :=
  if fs.dirs.contains file then .error .isADirectoryError
  else if posixDirname file != "" && !pathExists fs (posixDirname file) then
    .error .fileNotFoundError
  else .ok { fs with files := setFile fs.files file content }

/-- `create_file(file, content)` from the script: make the parent
directory (and its missing ancestors) if it does not exist, then write
`content` to `file`. -/
def create_file (fs : FS) (file content : String) : Except PyErr FS :=
  match
    (if pathExists fs (posixDirname file) then Except.ok fs
     else makedirs fs (posixDirname file) false) with
  | .error e => .error e
  | .ok fs1 => openW fs1 file content

/-- The namespace produced by the script's argument parser: `-f` alias
`--filename` (`nargs` plus, not marked required, so `none` when omitted),
`-d` alias `--dest` (`none` when omitted), `--drafts` (`store_true`). -/
structure Args where
  filename : Option (List String)
  dest : Option String
  drafts : Bool
deriving DecidableEq, Repr

/-- The ambient process data the script reads: the absolute path of the
installed script (`os.path.abspath(__file__)`) and today's date stamp
(`date.today().isoformat()`). -/
structure Env where
  scriptAbs : String
  today : String
deriving DecidableEq, Repr

/-- `create_file_name` as `main` calls it, on the raw parsed value of the
`-f` option: when the option was omitted the value is `None` and
`'-'.join(None)` raises `TypeError`. -/
def create_file_nameE (today : String) (file_args : Option (List String))
    (ext : String) : Except PyErr String :=
  match file_args with
  | none => .error .typeError
  | some l => .ok (create_file_name today l ext)

/-- `main(args)` from the script: build the file name, resolve the
destination directory (post mode unless `--drafts`), join, and write the
front-matter template. -/
def main (env : Env) (fs : FS) (args : Args) : Except PyErr FS :=
  match create_file_nameE env.today args.filename defaultExt with
  | .error e => .error e
  | .ok file_name =>
    match get_dest_dir env.scriptAbs (!args.drafts) args.dest with
    | .error e => .error e
    | .ok dest_dir => create_file fs (osJoin2 dest_dir file_name) get_front_matter

/-- `get_dest_dir` in the state-threaded semantics: its Python body calls
only the pure string functions `os.path.abspath`, `os.path.dirname` and
`os.path.join`, so it carries the filesystem through unchanged. -/
def get_dest_dirFS (fs : FS) (scriptAbs : String) (is_post : Bool)
    (dest : Option String) : FS × Except PyErr String :=
  (fs, get_dest_dir scriptAbs is_post dest)

/-- Does a command-line token look like an option (leading `-`)?
`argparse` stops consuming values for a `nargs` plus option at the next
such token. -/
def startsDash (s : String) : Bool :=
  match s.data with
  | c :: _ => c == '-'
  | [] => false

/-- Result of the argument-parsing layer: a parsed namespace, or
argparse's error path (print a usage message to stderr and exit with
status 2). -/
inductive ParseResult where
  | ok (args : Args)
  | usageError
deriving DecidableEq, Repr

/-- One pass over the command line for the parser the script configures.
Each step consumes at least one token, so fuel `argv.length + 1` always
suffices. -/
def parseLoopF : Nat → List String → Args → ParseResult
  | 0, _, _ => .usageError
  | _ + 1, [], acc => .ok acc
  | fuel + 1, tok :: rest, acc =>
    if tok = "-f" || tok = "--filename" then
      match rest.takeWhile (fun s => !startsDash s) with
      | [] => .usageError
      | ws => parseLoopF fuel (rest.dropWhile (fun s => !startsDash s))
          { acc with filename := some ws }
    else if tok = "-d" || tok = "--dest" then
      match rest with
      | v :: rest' => parseLoopF fuel rest' { acc with dest := some v }
      | [] => .usageError
    else if tok = "--drafts" then
      parseLoopF fuel rest { acc with drafts := true }
    else .usageError

/-- The script's argument parser applied to a command line.  No option is
declared `required`, so the parser performs no missing-argument check at
the end: an empty command line yields the all-default namespace
`Namespace(filename=None, dest=None, drafts=False)`. -/
def parseArgs (argv : List String) : ParseResult :=
  parseLoopF (argv.length + 1) argv
    { filename := none, dest := none, drafts := false }

/-- A concrete deployment: the repository root `/repo` with the script
installed at `/repo/_scripts/create_file.py`, run on 2024-03-15. -/
def envRepo : Env :=
  { scriptAbs := "/repo/_scripts/create_file.py", today := "2024-03-15" }

/-- A concrete starting filesystem for the deployment `envRepo`. -/
def fsRepo : FS :=
  { dirs := ["/", "/repo", "/repo/_scripts"], files := [] }

/-- A concrete invocation: `-f a -d ''` (post mode). -/
def argsPost : Args :=
  { filename := some ["a"], dest := some "", drafts := false }

/-- The filesystem after running `main envRepo fsRepo argsPost`. -/
def fsAfter : FS :=
  { dirs := ["/repo/_posts", "/", "/repo", "/repo/_scripts"],
    files := [("/repo/_posts/2024-03-15-a.md", get_front_matter)] }

/-- A minimal filesystem containing only the root directory. -/
def fsRoot : FS := { dirs := ["/"], files := [] }

/-- The filesystem after `create_file fsRoot "/a/b/f.md" "hi"`: the two
missing ancestors of the parent directory were created, then the file. -/
def fsScaffold : FS :=
  { dirs := ["/a/b", "/a", "/"], files := [("/a/b/f.md", "hi")] }

/-! ### String lemmas for `create_file_name` -/

theorem pyLower_append (a b : String) :
    pyLower (a ++ b) = pyLower a ++ pyLower b := by
  apply String.ext
  simp [pyLower]

theorem pyLower_dash : pyLower "-" = "-" := by decide

theorem pyLower_empty : pyLower "" = "" := by decide

/-- Lowercasing after joining equals joining the lowercased words: the
separator `-` is unchanged by `str.lower` and the mapping acts per
character. -/
theorem pyLower_pyJoin (l : List String) :
    pyLower (pyJoin "-" l) = pyJoin "-" (l.map pyLower) := by
  match l with
  | [] => exact pyLower_empty
  | [x] => rfl
  | x :: y :: rest =>
    show pyLower (x ++ "-" ++ pyJoin "-" (y :: rest)) = _
    rw [pyLower_append, pyLower_append, pyLower_dash,
        pyLower_pyJoin (y :: rest)]
    rfl

/-! ### Claims about the pure string layer -/

/-- C4: for every date, every non-empty word sequence and every extension,
`create_file_name` returns the ISO date, a dash, the words each lower-cased
and joined by dashes, then the extension. -/
theorem create_file_name_pattern (today : String) (ws : List String)
    (ext : String) (_h : ws ≠ []) :
    create_file_name today ws ext =
      today ++ "-" ++ pyJoin "-" (ws.map pyLower) ++ ext := by
  show pyJoin "-" [today, pyLower (pyJoin "-" ws)] ++ ext = _
  rw [pyLower_pyJoin]
  rfl

/-- Witness for C4 at the spec's own example: words `["hello", "World"]`
on 2024-01-02 with the default extension. -/
theorem create_file_name_pattern_witness :
    (["hello", "World"] : List String) ≠ [] ∧
    create_file_name "2024-01-02" ["hello", "World"] ".md" =
      "2024-01-02" ++ "-" ++
        pyJoin "-" ((["hello", "World"] : List String).map pyLower) ++ ".md" :=
  ⟨by decide, create_file_name_pattern "2024-01-02" ["hello", "World"] ".md"
    (by decide)⟩

/-- C10: on the empty word list `create_file_name` raises nothing and
returns the degenerate name date-dash-extension, e.g. `2024-03-15-.md`:
the empty join yields an empty word segment. -/
theorem create_file_name_empty_words :
    (∀ today ext : String, create_file_name today [] ext = today ++ "-" ++ ext) ∧
    create_file_name "2024-03-15" [] defaultExt = "2024-03-15-.md" := by
  constructor
  · intro today ext
    show pyJoin "-" [today, pyLower (pyJoin "-" [])] ++ ext = _
    rw [show pyJoin "-" ([] : List String) = "" from rfl, pyLower_empty]
    show (today ++ "-" ++ "") ++ ext = _
    rw [String.append_empty]
  · decide

/-- C7: `get_front_matter` takes no input and returns verbatim the fixed
template whose lines are a `---` fence, the four placeholder fields
`<author>`, `<title>`, `<categories>`, `<tag>`, the fixed `layout: post`
line, and a closing `---` fence (then the trailing final newline), with no
substitution of real values. -/
theorem get_front_matter_template :
    nlSegments get_front_matter =
      ["---", "authors: [<author>]", "layout: post", "title: <title>",
       "categories: [<categories>]", "tags: [<tag>]", "---", ""] := by
  decide

/-! ### Lemmas about the path functions -/

theorem joinL_suffix (a b : List Char) (h : absL b = false) :
    b <:+ joinL a b := by
  unfold joinL
  rw [h]
  simp only [if_false, Bool.false_eq_true]
  split
  · exact List.suffix_append a b
  · exact (List.suffix_cons '/' b).trans (List.suffix_append a ('/' :: b))

theorem getLast?_of_suffix {suf a : List Char} (h : suf <:+ a)
    (hne : suf ≠ []) : a.getLast? = suf.getLast? := by
  obtain ⟨pre, rfl⟩ := h
  rw [List.getLast?_append]
  cases hsuf : suf.getLast? with
  | none => exact absurd (List.getLast?_eq_none_iff.mp hsuf) hne
  | some c => rfl

/-- Joining a relative component onto a non-empty path that ends in a
non-separator character inserts exactly one `/`. -/
theorem joinL_eq_append (a b : List Char) (hb : absL b = false)
    (ha : a.isEmpty = false) (hs : lastIsSlash a = false) :
    joinL a b = a ++ '/' :: b := by
  unfold joinL
  rw [hb, ha, hs]
  rfl

theorem baseDirOf_suffix (sp : String) (b : Bool) :
    strEndsWith (baseDirOf sp b) (if b then "_posts" else "_drafts") := by
  unfold strEndsWith baseDirOf osJoin2
  cases b
  · exact joinL_suffix _ _ (by decide)
  · exact joinL_suffix _ _ (by decide)

theorem baseDirOf_not_empty (sp : String) (b : Bool) :
    (baseDirOf sp b).data.isEmpty = false := by
  have h := baseDirOf_suffix sp b
  unfold strEndsWith at h
  obtain ⟨pre, hpre⟩ := h
  rw [← hpre]
  cases b <;> simp

theorem baseDirOf_lastIsSlash (sp : String) (b : Bool) :
    lastIsSlash (baseDirOf sp b).data = false := by
  have h := baseDirOf_suffix sp b
  unfold strEndsWith at h
  have hlast := getLast?_of_suffix h (by cases b <;> decide)
  unfold lastIsSlash
  rw [hlast]
  cases b <;> decide

/-- Concatenating a relative component: string-level form. -/
theorem osJoin2_baseDir (sp d : String) (b : Bool)
    (hd : absL d.data = false) :
    osJoin2 (baseDirOf sp b) d = baseDirOf sp b ++ "/" ++ d := by
  apply String.ext
  show joinL (baseDirOf sp b).data d.data = _
  rw [joinL_eq_append _ _ hd (baseDirOf_not_empty sp b)
    (baseDirOf_lastIsSlash sp b)]
  simp

theorem absL_joinL (a b : List Char) (ha : absL a = true) :
    absL (joinL a b) = true := by
  unfold joinL
  split
  · assumption
  · split
    · cases a with
      | nil => simp [absL] at ha
      | cons c t => simpa [absL, List.cons_append] using ha
    · cases a with
      | nil => simp [absL] at ha
      | cons c t => simpa [absL, List.cons_append] using ha

theorem reverse_dropWhile_pref (l : List Char) (q : Char → Bool) :
    (l.reverse.dropWhile q).reverse <+: l := by
  have h : l.reverse.dropWhile q <:+ l.reverse := List.dropWhile_suffix q
  rw [← List.reverse_reverse (l.reverse.dropWhile q)] at h
  exact List.reverse_suffix.mp h

theorem absL_of_prefix {X l : List Char} (h : X <+: l) (hne : X ≠ [])
    (hl : absL l = true) : absL X = true := by
  obtain ⟨t, rfl⟩ := h
  cases X with
  | nil => exact absurd rfl hne
  | cons c X' => simpa [absL, List.cons_append] using hl

theorem splitHeadRaw_pref (p : List Char) : splitHeadRaw p <+: p :=
  reverse_dropWhile_pref p _

theorem stripTrail_pref (l : List Char) : stripTrail l <+: l :=
  reverse_dropWhile_pref l _

theorem splitHeadRaw_ne_nil {p : List Char} (hp : '/' ∈ p) :
    splitHeadRaw p ≠ [] := by
  unfold splitHeadRaw
  intro h
  have h2 : p.reverse.dropWhile (fun c => c != '/') = [] := by
    simpa using congrArg List.reverse h
  have h3 := List.dropWhile_eq_nil_iff.mp h2 '/' (List.mem_reverse.mpr hp)
  simp at h3

theorem stripTrail_ne_nil {l : List Char}
    (hc : l.any (fun c => c != '/') = true) : stripTrail l ≠ [] := by
  unfold stripTrail
  intro h
  have h2 : l.reverse.dropWhile (fun c => c == '/') = [] := by
    simpa using congrArg List.reverse h
  obtain ⟨x, hx, hx2⟩ := List.any_eq_true.mp hc
  have h3 := List.dropWhile_eq_nil_iff.mp h2 x (List.mem_reverse.mpr hx)
  simp at h3 hx2
  exact hx2 h3

theorem splitL_fst (p : List Char) :
    (splitL p).1 =
      if !(splitHeadRaw p).isEmpty && (splitHeadRaw p).any fun c => c != '/'
      then stripTrail (splitHeadRaw p) else splitHeadRaw p := rfl

theorem dirnameL_abs {p : List Char} (hp : absL p = true) :
    absL (dirnameL p) = true := by
  have hmem : '/' ∈ p := by
    cases p with
    | nil => simp [absL] at hp
    | cons c t =>
      have hc : c = '/' := by simpa [absL] using hp
      rw [hc]
      exact List.mem_cons_self _ _
  rw [dirnameL, splitL_fst]
  split
  · next hcond =>
    rw [Bool.and_eq_true] at hcond
    exact absL_of_prefix ((stripTrail_pref _).trans (splitHeadRaw_pref p))
      (stripTrail_ne_nil hcond.2) hp
  · exact absL_of_prefix (splitHeadRaw_pref p) (splitHeadRaw_ne_nil hmem) hp

theorem posixDirname_abs {p : String} (hp : isAbs p = true) :
    isAbs (posixDirname p) = true := dirnameL_abs hp

/-! ### Length bounds justifying the `makedirs` fuel -/

theorem splitL_snd_reverse (p : List Char) :
    (splitL p).2 = (p.reverse.takeWhile fun c => c != '/').reverse := rfl

theorem splitL_fst_length_le (p : List Char) :
    (splitL p).1.length ≤ p.length := by
  have h : (splitL p).1.length ≤ (splitHeadRaw p).length := by
    rw [splitL_fst]
    split
    · exact (stripTrail_pref _).length_le
    · exact le_refl _
  exact h.trans (splitHeadRaw_pref p).length_le

theorem splitL_fst_length_lt (p : List Char) (ht : (splitL p).2 ≠ []) :
    (splitL p).1.length < p.length := by
  have hlt : (splitHeadRaw p).length < p.length := by
    have hsum : (p.reverse.takeWhile fun c => c != '/').length +
        (p.reverse.dropWhile fun c => c != '/').length = p.length := by
      rw [← List.length_append, List.takeWhile_append_dropWhile,
        List.length_reverse]
    have htne : (p.reverse.takeWhile fun c => c != '/') ≠ [] := by
      intro h0
      apply ht
      rw [splitL_snd_reverse, h0]
      rfl
    have hpos : 0 < (p.reverse.takeWhile fun c => c != '/').length :=
      List.length_pos.mpr htne
    unfold splitHeadRaw
    rw [List.length_reverse]
    omega
  have h : (splitL p).1.length ≤ (splitHeadRaw p).length := by
    rw [splitL_fst]
    split
    · exact (stripTrail_pref _).length_le
    · exact le_refl _
  omega

theorem posixSplit_fst_le (p : String) : (posixSplit p).1.length ≤ p.length :=
  splitL_fst_length_le p.data

theorem posixSplit_fst_lt (p : String) (h : (posixSplit p).2 ≠ "") :
    (posixSplit p).1.length < p.length := by
  apply splitL_fst_length_lt
  intro h0
  apply h
  show (splitL p.data).2.asString = ""
  rw [h0]
  rfl

theorem splitNorm_fst_lt (name : String) (h : (splitNorm name).2 ≠ "") :
    (splitNorm name).1.length < name.length := by
  unfold splitNorm at h ⊢
  by_cases hc : (posixSplit name).2 = ""
  · rw [if_pos hc] at h ⊢
    exact lt_of_lt_of_le (posixSplit_fst_lt _ h) (posixSplit_fst_le name)
  · rw [if_neg hc] at h ⊢
    exact posixSplit_fst_lt name hc

/-- The fuel of `makedirsF` is irrelevant as soon as it exceeds the length
of the path: the recursion always terminates within the budget that
`makedirs` provides. -/
theorem makedirsF_fuel_irrelevant (f1 : Nat) :
    ∀ (f2 : Nat) (fs : FS) (name : String) (exist_ok : Bool),
    name.length < f1 → name.length < f2 →
    makedirsF f1 fs name exist_ok = makedirsF f2 fs name exist_ok := by
  induction f1 with
  | zero => intro f2 fs name exist_ok h1 _; omega
  | succ f1' ih =>
    intro f2 fs name exist_ok h1 h2
    cases f2 with
    | zero => omega
    | succ f2' =>
      show makedirsF (f1' + 1) fs name exist_ok =
        makedirsF (f2' + 1) fs name exist_ok
      simp only [makedirsF]
      by_cases hcond : ((splitNorm name).1 != "" && (splitNorm name).2 != "" &&
          !pathExists fs (splitNorm name).1) = true
      · rw [if_pos hcond, if_pos hcond]
        have htail : (splitNorm name).2 ≠ "" := by
          intro h0
          rw [h0] at hcond
          simp at hcond
        have hlt := splitNorm_fst_lt name htail
        rw [ih f2' fs (splitNorm name).1 true (by omega) (by omega)]
      · rw [if_neg hcond, if_neg hcond]

/-! ### Claims about `get_dest_dir` -/

/-- C5 counterexample: with the script installed at
`/repo/_scripts/create_file.py`, `get_dest_dir(True, '')` returns
`/repo/_posts/` — `os.path.join` appends a separator for the empty last
component — so the result does not end in `_posts` as the claim states. -/
theorem get_dest_dir_trailing_sep_cex :
    get_dest_dir "/repo/_scripts/create_file.py" true (some "") =
      .ok "/repo/_posts/" ∧
    ¬ strEndsWith "/repo/_posts/" "_posts" := by
  exact ⟨rfl, by decide⟩

/-- C5 amended: with Post kind and empty subpath `get_dest_dir` yields the
`_posts` base directory followed by a trailing separator (a path ending in
`_posts/`); with Draft kind and empty subpath, the `_drafts` base directory
followed by a trailing separator; and for any kind with subpath `sub/path`
it yields the corresponding base directory with `/sub/path` appended. -/
theorem get_dest_dir_resolution (sp : String) :
    (get_dest_dir sp true (some "") = .ok (baseDirOf sp true ++ "/") ∧
      strEndsWith (baseDirOf sp true) "_posts") ∧
    (get_dest_dir sp false (some "") = .ok (baseDirOf sp false ++ "/") ∧
      strEndsWith (baseDirOf sp false) "_drafts") ∧
    ∀ b : Bool, get_dest_dir sp b (some "sub/path") =
      .ok (baseDirOf sp b ++ "/" ++ "sub/path") := by
  refine ⟨⟨?_, baseDirOf_suffix sp true⟩, ⟨?_, baseDirOf_suffix sp false⟩, ?_⟩
  · show Except.ok (osJoin2 (baseDirOf sp true) "") = _
    rw [osJoin2_baseDir sp "" true (by decide), String.append_empty]
  · show Except.ok (osJoin2 (baseDirOf sp false) "") = _
    rw [osJoin2_baseDir sp "" false (by decide), String.append_empty]
  · intro b
    show Except.ok (osJoin2 (baseDirOf sp b) "sub/path") = _
    rw [osJoin2_baseDir sp "sub/path" b (by decide)]

/-- C9: for any kind and any present subpath, `get_dest_dir` returns an
absolute path, and in the state-threaded semantics it performs no
filesystem access: the filesystem component it returns is its input,
for every input filesystem. -/
theorem get_dest_dir_absolute_pure (sp d : String) (b : Bool)
    (h : isAbs sp = true) :
    ∃ r, get_dest_dir sp b (some d) = .ok r ∧ isAbs r = true ∧
      ∀ fs : FS, get_dest_dirFS fs sp b (some d) = (fs, .ok r) := by
  refine ⟨osJoin2 (osJoin2 (posixDirname (posixDirname sp))
    (if b then "_posts" else "_drafts")) d, rfl, ?_, fun fs => rfl⟩
  exact absL_joinL _ _ (absL_joinL _ _ (posixDirname_abs (posixDirname_abs h)))

/-- Witness for C9 at the concrete deployment path. -/
theorem get_dest_dir_absolute_pure_witness :
    isAbs "/repo/_scripts/create_file.py" = true ∧
    ∃ r, get_dest_dir "/repo/_scripts/create_file.py" true (some "x") =
        .ok r ∧ isAbs r = true ∧
      ∀ fs : FS, get_dest_dirFS fs "/repo/_scripts/create_file.py" true
        (some "x") = (fs, .ok r) :=
  ⟨by decide, get_dest_dir_absolute_pure "/repo/_scripts/create_file.py" "x"
    true (by decide)⟩

/-- C3: when `-d` is omitted the parsed `dest` is `None`; `main` then
raises `TypeError` inside the `os.path.join` step of `get_dest_dir`, and
since the error propagates before `create_file` runs, no directory is
created and no file is written — the returned computation carries no new
filesystem state. -/
theorem main_dest_none_typeError (env : Env) (fs : FS) (ws : List String)
    (b : Bool) :
    get_dest_dir env.scriptAbs (!b) none = .error .typeError ∧
    main env fs { filename := some ws, dest := none, drafts := b } =
      .error .typeError :=
  ⟨rfl, rfl⟩

/-- C1: end-to-end scenario 1 as the code actually behaves.  With words
`["My", "First", "Post"]` the file name is built as the claim expects, but
with the `-d` flag omitted `dest` is `None` and `main` raises `TypeError`
instead of creating `<root>/_posts/2024-03-15-my-first-post.md`. -/
theorem scenario1_typeError (env : Env) (fs : FS) :
    create_file_name "2024-03-15" ["My", "First", "Post"] defaultExt =
      "2024-03-15-my-first-post.md" ∧
    main env fs ⟨some ["My", "First", "Post"], none, false⟩ =
      .error .typeError :=
  ⟨by decide, rfl⟩

/-- C2: the argument-parsing layer accepts a command line without `-f`
(the option is not marked required), parsing it to the all-default
namespace instead of exiting with a usage error; the process then fails
with `TypeError` in `create_file_name` before any filesystem operation. -/
theorem missing_filename_no_usage_error (env : Env) (fs : FS) :
    parseArgs [] = .ok { filename := none, dest := none, drafts := false } ∧
    main env fs { filename := none, dest := none, drafts := false } =
      .error .typeError :=
  ⟨rfl, rfl⟩

/-! ### Lemmas about the filesystem operations -/

theorem lookupFile_setFile (l : List (String × String)) (k v : String) :
    lookupFile (setFile l k v) k = some v := by
  induction l with
  | nil => simp [setFile, lookupFile]
  | cons kv rest ih =>
    obtain ⟨k', v'⟩ := kv
    by_cases hk : k' = k
    · subst hk
      simp [setFile, lookupFile]
    · simp [setFile, lookupFile, hk, ih]

theorem setFile_idem (l : List (String × String)) (k v : String) :
    setFile (setFile l k v) k v = setFile l k v := by
  induction l with
  | nil => simp [setFile]
  | cons kv rest ih =>
    obtain ⟨k', v'⟩ := kv
    by_cases hk : k' = k
    · subst hk
      simp [setFile]
    · simp [setFile, hk, ih]

theorem setFile_cons_eq (k' v' : String) (rest : List (String × String))
    (k v : String) (h : k' = k) :
    setFile ((k', v') :: rest) k v = (k, v) :: rest := by
  simp [setFile, h]

theorem setFile_cons_ne (k' v' : String) (rest : List (String × String))
    (k v : String) (h : ¬ k' = k) :
    setFile ((k', v') :: rest) k v = (k', v') :: setFile rest k v := by
  simp [setFile, h]

theorem mem_keys_setFile {l : List (String × String)} {g : String}
    (k v : String) (h : g ∈ l.map Prod.fst) :
    g ∈ (setFile l k v).map Prod.fst := by
  induction l with
  | nil => simp at h
  | cons kv rest ih =>
    obtain ⟨k', v'⟩ := kv
    by_cases hk : k' = k
    · subst hk
      rw [setFile_cons_eq k' v' rest k' v rfl]
      simp only [List.map_cons] at h ⊢
      exact h
    · rw [setFile_cons_ne k' v' rest k v hk]
      simp only [List.map_cons, List.mem_cons] at h ⊢
      rcases h with h | h
      · exact Or.inl h
      · exact Or.inr (ih h)

theorem containsKey_setFile {l : List (String × String)} {g : String}
    (k v : String) (h : (l.map Prod.fst).contains g = true) :
    ((setFile l k v).map Prod.fst).contains g = true := by
  have h' : g ∈ l.map Prod.fst := List.elem_iff.mp h
  exact List.elem_iff.mpr (mem_keys_setFile k v h')

theorem pathExists_setFile {fs : FS} {p : String} (f c : String)
    (h : pathExists fs p = true) :
    pathExists { fs with files := setFile fs.files f c } p = true := by
  unfold pathExists at h ⊢
  rw [Bool.or_eq_true] at h ⊢
  rcases h with h | h
  · exact Or.inl h
  · exact Or.inr (containsKey_setFile f c h)

theorem openW_ok {fs fs' : FS} {file content : String}
    (h : openW fs file content = .ok fs') :
    fs' = { fs with files := setFile fs.files file content } ∧
    fs.dirs.contains file = false ∧
    (posixDirname file = "" ∨ pathExists fs (posixDirname file) = true) := by
  unfold openW at h
  by_cases h1 : fs.dirs.contains file = true
  · rw [if_pos h1] at h
    simp at h
  · rw [if_neg h1] at h
    by_cases h2 : (posixDirname file != "" &&
        !pathExists fs (posixDirname file)) = true
    · rw [if_pos h2] at h
      simp at h
    · rw [if_neg h2] at h
      simp only [Except.ok.injEq] at h
      refine ⟨h.symm, by simpa using h1, ?_⟩
      by_cases hd0 : posixDirname file = ""
      · exact Or.inl hd0
      · right
        by_contra hpe
        apply h2
        rw [Bool.and_eq_true]
        refine ⟨bne_iff_ne.mpr hd0, ?_⟩
        simp [Bool.not_eq_true] at hpe
        simp [hpe]

theorem openW_eq_ok {fs : FS} {file content : String}
    (h1 : fs.dirs.contains file = false)
    (h2 : pathExists fs (posixDirname file) = true) :
    openW fs file content =
      .ok { fs with files := setFile fs.files file content } := by
  unfold openW
  rw [if_neg (by rw [h1]; simp : ¬(fs.dirs.contains file = true)),
    if_neg (by rw [h2]; simp : ¬((posixDirname file != "" &&
      !pathExists fs (posixDirname file)) = true))]

theorem makedirs_empty_not_ok (fs fsm : FS) :
    makedirs fs "" false ≠ .ok fsm := by
  intro h
  have h' : mkdirEx fs "" false = .ok fsm := h
  unfold mkdirEx mkdir at h'
  by_cases hp : pathExists fs "" = true
  · rw [if_pos hp] at h'
    simp at h'
  · rw [if_neg hp, if_pos rfl] at h'
    simp at h'

/-- A successful `create_file` is repeatable with no further state change:
the parent directory now exists, so the second run skips `makedirs` and
the truncating write replaces the file content with itself. -/
theorem create_file_idem {fs fs' : FS} {file content : String}
    (h : create_file fs file content = .ok fs') :
    create_file fs' file content = .ok fs' := by
  unfold create_file at h ⊢
  by_cases hex : pathExists fs (posixDirname file) = true
  · rw [if_pos hex] at h
    have h' : openW fs file content = .ok fs' := h
    obtain ⟨rfl, h1, h2⟩ := openW_ok h'
    have hex' : pathExists { fs with files := setFile fs.files file content }
        (posixDirname file) = true := pathExists_setFile _ _ hex
    have h1' : ({ fs with files := setFile fs.files file content } :
        FS).dirs.contains file = false := h1
    rw [if_pos hex']
    show openW _ file content = _
    rw [openW_eq_ok h1' hex']
    show Except.ok
      (⟨fs.dirs, setFile (setFile fs.files file content) file content⟩ : FS) = _
    rw [setFile_idem]
  · rw [if_neg hex] at h
    cases hm : makedirs fs (posixDirname file) false with
    | error e =>
      rw [hm] at h
      simp at h
    | ok fsm =>
      rw [hm] at h
      have h' : openW fsm file content = .ok fs' := h
      obtain ⟨rfl, h1, h2⟩ := openW_ok h'
      rcases h2 with h2 | h2
      · rw [h2] at hm
        exact absurd hm (makedirs_empty_not_ok fs fsm)
      · have hex' : pathExists
            { fsm with files := setFile fsm.files file content }
            (posixDirname file) = true := pathExists_setFile _ _ h2
        have h1' : ({ fsm with files := setFile fsm.files file content } :
            FS).dirs.contains file = false := h1
        rw [if_pos hex']
        show openW _ file content = _
        rw [openW_eq_ok h1' hex']
        show Except.ok
          (⟨fsm.dirs, setFile (setFile fsm.files file content) file content⟩ :
            FS) = _
        rw [setFile_idem]

/-! ### Claims about `create_file` and `main` -/

/-- C6: whenever `create_file` succeeds, the parent directory of the
target exists afterwards (created, together with its missing ancestors, by
`os.makedirs` when it was absent) and the target file holds exactly the
content passed in, byte for byte, any previous content having been
truncated away by the `w+` write. -/
theorem create_file_writes (fs : FS) (file content : String) (fs' : FS)
    (h : create_file fs file content = .ok fs') :
    lookupFile fs'.files file = some content ∧
    pathExists fs' (posixDirname file) = true := by
  unfold create_file at h
  by_cases hex : pathExists fs (posixDirname file) = true
  · rw [if_pos hex] at h
    have h' : openW fs file content = .ok fs' := h
    obtain ⟨rfl, h1, h2⟩ := openW_ok h'
    exact ⟨lookupFile_setFile _ _ _, pathExists_setFile _ _ hex⟩
  · rw [if_neg hex] at h
    cases hm : makedirs fs (posixDirname file) false with
    | error e =>
      rw [hm] at h
      simp at h
    | ok fsm =>
      rw [hm] at h
      have h' : openW fsm file content = .ok fs' := h
      obtain ⟨rfl, h1, h2⟩ := openW_ok h'
      rcases h2 with h2 | h2
      · rw [h2] at hm
        exact absurd hm (makedirs_empty_not_ok fs fsm)
      · exact ⟨lookupFile_setFile _ _ _, pathExists_setFile _ _ h2⟩

/-- Witness for C6: writing `/a/b/f.md` into a filesystem holding only the
root directory creates `/a`, then `/a/b`, then the file. -/
theorem create_file_writes_witness :
    create_file fsRoot "/a/b/f.md" "hi" = .ok fsScaffold ∧
    (lookupFile fsScaffold.files "/a/b/f.md" = some "hi" ∧
     pathExists fsScaffold (posixDirname "/a/b/f.md") = true) :=
  ⟨rfl, create_file_writes fsRoot "/a/b/f.md" "hi" fsScaffold rfl⟩

/-- C8: running `main` twice with identical arguments on the same day
computes the same target path and rewrites identical content, so the
filesystem after the second run equals the filesystem after the first. -/
theorem main_idempotent (env : Env) (fs : FS) (args : Args) (fs1 : FS)
    (h : main env fs args = .ok fs1) : main env fs1 args = .ok fs1 := by
  unfold main at h ⊢
  cases hn : create_file_nameE env.today args.filename defaultExt with
  | error e =>
    rw [hn] at h
    simp at h
  | ok fname =>
    rw [hn] at h
    cases hd : get_dest_dir env.scriptAbs (!args.drafts) args.dest with
    | error e =>
      rw [hd] at h
      simp at h
    | ok dd =>
      rw [hd] at h
      exact create_file_idem h

/-- Witness for C8 at the concrete deployment `envRepo`. -/
theorem main_idempotent_witness :
    main envRepo fsRepo argsPost = .ok fsAfter ∧
    main envRepo fsAfter argsPost = .ok fsAfter :=
  ⟨rfl, main_idempotent envRepo fsRepo argsPost fsAfter rfl⟩

end CreateFile
